import Mathlib

/-!
Verification of the virtio pmem driver (`drivers/nvdimm/virtio_pmem.c`)
against its natural-language specification.

The driver code is shallowly embedded: each external collaborator the C
code calls (`virtio_get_shm_region`, `virtio_cread_le`,
`virtio_find_single_vq`, `nvdimm_bus_register`,
`nvdimm_pmem_region_create`, `phys_to_target_node`,
`memory_add_physaddr_to_nid`) is a field of an environment record, and
`virtio_pmem_probe` is translated control-flow point by control-flow
point from the C function, recording the events it performs (reads,
registrations, releases) in a trace, its final resource state and its
return value.  Machine `u64` arithmetic is `Nat` arithmetic modulo
`2 ^ 64`.
-/

namespace VirtioPmem

/-- The modulus of the driver's `u64` arithmetic. -/
def U64 : Nat := 2 ^ 64

/-- `NUMA_NO_NODE` from the kernel headers. -/
def NUMA_NO_NODE : Int := -1

/-- Little-endian decoding of a byte list (first byte least significant),
as performed by `virtio_cread_le` for a `u64` field; each byte is a `u8`,
hence the `% 256`. -/
def le64 (bs : List Nat) : Nat :=
  bs.foldr (fun b a => b % 256 + 256 * a) 0

/-- `struct virtio_shm_region`: the capability-described shared-memory
region (`addr` and `len` are `u64` fields). -/
structure ShmRegion where
  addr : Nat
  len : Nat
deriving DecidableEq, Repr

/-- Observable events of an attach/detach, in the order the driver
performs them.  Acquisition events (`initVq`, `busRegister`) are emitted
only when the corresponding call succeeds; `regionCreate` marks the
attempt to create the nvdimm region. -/
inductive Ev where
  | initVq
  | readShm
  | readCfgStart
  | readCfgSize
  | busRegister
  | deviceReady
  | regionCreate
  | resetDevice
  | busUnregister
  | delVqs
deriving DecidableEq, Repr

/-- Resources held after the probe returns. -/
structure Resources where
  queue : Bool
  bus : Bool
  region : Bool
  ready : Bool
deriving DecidableEq, Repr

/-- The attach-time error taxonomy; `errno` below maps it to the C
return codes. -/
inductive AttachError where
  | configUnavailable
  | noMem
  | queueAllocFailed (e : Int)
  | busRegFailed
  | regionCreateFailed
deriving DecidableEq, Repr

/-- The C error codes returned by `virtio_pmem_probe` for each failure. -/
def errno : AttachError → Int
  | .configUnavailable => -22
  | .noMem => -12
  | .queueAllocFailed e => e
  | .busRegFailed => -6
  | .regionCreateFailed => -6

/-- The environment of one probe: results of every external call the C
code makes, in the order made.  `config_get_available` is
`vdev->config->get != NULL`; `shm_region` is the result of
`virtio_get_shm_region` for `VIRTIO_PMEM_SHMCAP_ID_PMEM_REGION`;
the byte lists are the configuration-space bytes `virtio_cread_le`
would read. -/
structure ProbeEnv where
  config_get_available : Bool
  alloc_ok : Bool
  vq_err : Option Int
  shm_region : Option ShmRegion
  config_start_bytes : List Nat
  config_size_bytes : List Nat
  bus_ok : Bool
  region_ok : Bool
  phys_to_target_node : Nat → Int
  memory_add_physaddr_to_nid : Nat → Int

/-- What a probe produced: its event trace, its return value (`none` is
success), the resources still held, the discovered `(start, size)`, the
computed `res.end` and the `target_node` passed to region creation. -/
structure ProbeResult where
  trace : List Ev
  err : Option AttachError
  res : Resources
  discovered : Option (Nat × Nat)
  resEnd : Option Nat
  targetNode : Option Int
deriving Repr

/-- The discovered `start` (stored into the `u64` `vpmem->start`):
the capability's address when a capability region is advertised,
otherwise the little-endian configuration field. -/
def discoveredStart (env : ProbeEnv) : Nat :=
  match env.shm_region with
  | some r => r.addr % U64
  | none => le64 env.config_start_bytes % U64

/-- The discovered `size` (stored into the `u64` `vpmem->size`). -/
def discoveredSize (env : ProbeEnv) : Nat :=
  match env.shm_region with
  | some r => r.len % U64
  | none => le64 env.config_size_bytes % U64

/-- The read events discovery performs: the capability query alone, or
the two configuration-space reads. -/
def discoveryEvents (env : ProbeEnv) : List Ev :=
  match env.shm_region with
  | some _ => [Ev.readShm]
  | none => [Ev.readCfgStart, Ev.readCfgSize]

/-- Shallow embedding of `virtio_pmem_probe`, translated branch by
branch from the C source:
1. `if (!vdev->config->get) return -EINVAL;`
2. `devm_kzalloc` failure returns `-ENOMEM` via `out_err`;
3. `init_vq` failure propagates `PTR_ERR` via `out_err`;
4. discovery: `virtio_get_shm_region` if advertised, else two
   `virtio_cread_le` reads; `res.end = start + size - 1` in `u64`;
5. `nvdimm_bus_register` failure returns `-ENXIO` via `out_vq`
   (`del_vqs`);
6. NUMA: `target_node = phys_to_target_node(start)`, replaced by
   `memory_add_physaddr_to_nid(start)` when it is `NUMA_NO_NODE`;
7. `virtio_device_ready`, then `nvdimm_pmem_region_create`; failure
   returns `-ENXIO` via `out_nd` (`reset`, `bus_unregister`,
   `del_vqs`). -/
def virtio_pmem_probe (env : ProbeEnv) : ProbeResult :=
  match env.config_get_available with
  | false =>
    { trace := [], err := some .configUnavailable,
      res := ⟨false, false, false, false⟩,
      discovered := none, resEnd := none, targetNode := none }
  | true =>
    match env.alloc_ok with
    | false =>
      { trace := [], err := some .noMem,
        res := ⟨false, false, false, false⟩,
        discovered := none, resEnd := none, targetNode := none }
    | true =>
      match env.vq_err with
      | some e =>
        { trace := [], err := some (.queueAllocFailed e),
          res := ⟨false, false, false, false⟩,
          discovered := none, resEnd := none, targetNode := none }
      | none =>
        let vstart := discoveredStart env
        let vsize := discoveredSize env
        let readEvs := discoveryEvents env
        let res_end := (vstart + vsize + (U64 - 1)) % U64
        match env.bus_ok with
        | false =>
          { trace := [Ev.initVq] ++ readEvs ++ [Ev.delVqs],
            err := some .busRegFailed,
            res := ⟨false, false, false, false⟩,
            discovered := some (vstart, vsize),
            resEnd := some res_end, targetNode := none }
        | true =>
          let tn0 := env.phys_to_target_node vstart
          let tn :=
            if tn0 = NUMA_NO_NODE then env.memory_add_physaddr_to_nid vstart
            else tn0
          match env.region_ok with
          | true =>
            { trace := [Ev.initVq] ++ readEvs ++
                [Ev.busRegister, Ev.deviceReady, Ev.regionCreate],
              err := none,
              res := ⟨true, true, true, true⟩,
              discovered := some (vstart, vsize),
              resEnd := some res_end, targetNode := some tn }
          | false =>
            { trace := [Ev.initVq] ++ readEvs ++
                [Ev.busRegister, Ev.deviceReady, Ev.regionCreate,
                 Ev.resetDevice, Ev.busUnregister, Ev.delVqs],
              err := some .regionCreateFailed,
              res := ⟨false, false, false, false⟩,
              discovered := some (vstart, vsize),
              resEnd := some res_end, targetNode := some tn }

/-- Shallow embedding of `virtio_pmem_remove`: the events it performs,
in source order: `nvdimm_bus_unregister` (which tears down the region,
draining pending requests), then `del_vqs`, then `virtio_reset_device`. -/
def virtio_pmem_remove_trace : List Ev :=
  [Ev.busUnregister, Ev.delVqs, Ev.resetDevice]

/-- Release-event classifier (used to state the unwind-order property). -/
def isRelEv : Ev → Bool
  | .delVqs => true
  | .busUnregister => true
  | _ => false

/-- Acquisition-event classifier. -/
def isAcqEv : Ev → Bool
  | .initVq => true
  | .busRegister => true
  | _ => false

/-- The release event that undoes an acquisition event. -/
def relOf : Ev → Ev
  | .initVq => .delVqs
  | .busRegister => .busUnregister
  | e => e

/-- State of the `pmem_lock` spinlock. -/
inductive LockState where
  | unheld
  | held
deriving DecidableEq, Repr

/-- One outstanding flush request: its sequence token and the identity
of the caller that submitted it (`struct virtio_pmem_request` carries
the waiting caller through its wait queue; here the caller is named
directly). -/
structure FlushReq where
  token : Nat
  caller : Nat
deriving DecidableEq, Repr

/-- The fields of `struct virtio_pmem` that `init_vq` initializes:
the request virtqueue, the `pmem_lock` spinlock and the `req_list`
pending collection. -/
structure VirtioPmemDev where
  req_vq : Unit
  pmem_lock : LockState
  req_list : List FlushReq
deriving DecidableEq, Repr

/-- Shallow embedding of `init_vq`: `virtio_find_single_vq` either
fails (its `PTR_ERR` is propagated) or yields the queue, after which
`spin_lock_init` and `INIT_LIST_HEAD` run. -/
def init_vq (find_single_vq : Except Int Unit) : Except Int VirtioPmemDev :=
  match find_single_vq with
  | .error e => .error e
  | .ok vq => .ok { req_vq := vq, pmem_lock := .unheld, req_list := [] }

/-- State of the flush request queue: the next fresh sequence token and
the pending collection in FIFO submission order. -/
structure QueueState where
  next_token : Nat
  pending : List FlushReq
deriving DecidableEq, Repr

/-- Modelled from the spec: §4.2 `submit_flush` steps 1–4 (the kernel's
`virtio_pmem_flush` is not in the shown source).  Under the device
lock, a fresh sequence token is drawn and the new request is appended
to the tail of the pending collection; the token placed on the hardware
queue is returned. -/
def submit_flush (st : QueueState) (caller : Nat) : QueueState × Nat :=
  ({ next_token := st.next_token + 1,
     pending := st.pending ++ [⟨st.next_token, caller⟩] }, st.next_token)

/-- Submit a flush for each caller in the list, in order. -/
def submitAll (st : QueueState) (cs : List Nat) : QueueState :=
  cs.foldl (fun s c => (submit_flush s c).1) st

/-- Modelled from the spec: §4.3 Completion Dispatcher (the kernel's
`virtio_pmem_host_ack` is not in the shown source).  Under the device
lock, the pending request whose sequence token matches the completed
descriptor is looked up (by token, not by position), removed from the
pending collection, and its caller is resolved; a token with no
pending match is dropped silently. -/
def resolve_completion (st : QueueState) (t : Nat) : QueueState × Option Nat :=
  match st.pending.find? (fun r => r.token == t) with
  | some r =>
    ({ st with pending := st.pending.filter (fun r2 => !(r2.token == t)) },
     some r.caller)
  | none => (st, none)

/-- Process a list of completed tokens, in the order they arrive. -/
def resolveSeq (st : QueueState) (ts : List Nat) : QueueState :=
  ts.foldl (fun s t => (resolve_completion s t).1) st

/-- The pending collection produced by submitting callers `cs` starting
from fresh token `t0`: tokens `t0, t0+1, …` paired with the callers in
submission order. -/
def pendList (t0 : Nat) (cs : List Nat) : List FlushReq :=
  match cs with
  | [] => []
  | c :: rest => ⟨t0, c⟩ :: pendList (t0 + 1) rest

/-! ### Concrete probe environments (used by witnesses and
counterexamples) -/

/-- A host that advertises the capability region; every external call
succeeds; the platform cannot resolve a target node (`NUMA_NO_NODE`),
while the local NUMA computation yields node 2. -/
def envShmOk : ProbeEnv :=
  { config_get_available := true, alloc_ok := true, vq_err := none,
    shm_region := some ⟨4096, 8192⟩,
    config_start_bytes := [0, 16, 0, 0, 0, 0, 0, 0],
    config_size_bytes := [0, 32, 0, 0, 0, 0, 0, 0],
    bus_ok := true, region_ok := true,
    phys_to_target_node := fun _ => -1,
    memory_add_physaddr_to_nid := fun _ => 2 }

/-- A host with no capability region: discovery falls back to the
little-endian configuration fields (start 4096, size 8192). -/
def envCfgOk : ProbeEnv :=
  { config_get_available := true, alloc_ok := true, vq_err := none,
    shm_region := none,
    config_start_bytes := [0, 16, 0, 0, 0, 0, 0, 0],
    config_size_bytes := [0, 32, 0, 0, 0, 0, 0, 0],
    bus_ok := true, region_ok := true,
    phys_to_target_node := fun _ => 7,
    memory_add_physaddr_to_nid := fun _ => 2 }

/-- Configuration-space access disabled (`vdev->config->get == NULL`)
while a capability region *is* advertised. -/
def envCfgOffShm : ProbeEnv :=
  { config_get_available := false, alloc_ok := true, vq_err := none,
    shm_region := some ⟨4096, 8192⟩,
    config_start_bytes := [0, 16, 0, 0, 0, 0, 0, 0],
    config_size_bytes := [0, 32, 0, 0, 0, 0, 0, 0],
    bus_ok := true, region_ok := true,
    phys_to_target_node := fun _ => 7,
    memory_add_physaddr_to_nid := fun _ => 2 }

/-- A capability region whose `start + size - 1` overflows `u64`:
`start = 2^64 - 1`, `size = 2`. -/
def envOverflow : ProbeEnv :=
  { config_get_available := true, alloc_ok := true, vq_err := none,
    shm_region := some ⟨2 ^ 64 - 1, 2⟩,
    config_start_bytes := [0, 16, 0, 0, 0, 0, 0, 0],
    config_size_bytes := [0, 32, 0, 0, 0, 0, 0, 0],
    bus_ok := true, region_ok := true,
    phys_to_target_node := fun _ => 7,
    memory_add_physaddr_to_nid := fun _ => 2 }

/-- An attach whose final step, region creation, fails; everything
before it succeeds. -/
def envRegionFail : ProbeEnv :=
  { config_get_available := true, alloc_ok := true, vq_err := none,
    shm_region := some ⟨4096, 8192⟩,
    config_start_bytes := [0, 16, 0, 0, 0, 0, 0, 0],
    config_size_bytes := [0, 32, 0, 0, 0, 0, 0, 0],
    bus_ok := true, region_ok := false,
    phys_to_target_node := fun _ => 7,
    memory_add_physaddr_to_nid := fun _ => 2 }

/-! ### Branch characterizations of `virtio_pmem_probe` -/

lemma probe_cfg_unavailable (env : ProbeEnv)
    (hg : env.config_get_available = false) :
    virtio_pmem_probe env =
      { trace := [], err := some .configUnavailable,
        res := ⟨false, false, false, false⟩,
        discovered := none, resEnd := none, targetNode := none } := by
  unfold virtio_pmem_probe
  rw [hg]

lemma probe_alloc_fail (env : ProbeEnv)
    (hg : env.config_get_available = true) (hal : env.alloc_ok = false) :
    virtio_pmem_probe env =
      { trace := [], err := some .noMem,
        res := ⟨false, false, false, false⟩,
        discovered := none, resEnd := none, targetNode := none } := by
  unfold virtio_pmem_probe
  rw [hg, hal]

lemma probe_vq_fail (env : ProbeEnv) (e : Int)
    (hg : env.config_get_available = true) (hal : env.alloc_ok = true)
    (hvq : env.vq_err = some e) :
    virtio_pmem_probe env =
      { trace := [], err := some (.queueAllocFailed e),
        res := ⟨false, false, false, false⟩,
        discovered := none, resEnd := none, targetNode := none } := by
  unfold virtio_pmem_probe
  rw [hg, hal, hvq]

lemma probe_bus_fail (env : ProbeEnv)
    (hg : env.config_get_available = true) (hal : env.alloc_ok = true)
    (hvq : env.vq_err = none) (hb : env.bus_ok = false) :
    virtio_pmem_probe env =
      { trace := [Ev.initVq] ++ discoveryEvents env ++ [Ev.delVqs],
        err := some .busRegFailed,
        res := ⟨false, false, false, false⟩,
        discovered := some (discoveredStart env, discoveredSize env),
        resEnd := some ((discoveredStart env + discoveredSize env + (U64 - 1)) % U64),
        targetNode := none } := by
  unfold virtio_pmem_probe
  rw [hg, hal, hvq, hb]

lemma probe_success (env : ProbeEnv)
    (hg : env.config_get_available = true) (hal : env.alloc_ok = true)
    (hvq : env.vq_err = none) (hb : env.bus_ok = true)
    (hr : env.region_ok = true) :
    virtio_pmem_probe env =
      { trace := [Ev.initVq] ++ discoveryEvents env ++
          [Ev.busRegister, Ev.deviceReady, Ev.regionCreate],
        err := none,
        res := ⟨true, true, true, true⟩,
        discovered := some (discoveredStart env, discoveredSize env),
        resEnd := some ((discoveredStart env + discoveredSize env + (U64 - 1)) % U64),
        targetNode := some
          (if env.phys_to_target_node (discoveredStart env) = NUMA_NO_NODE
           then env.memory_add_physaddr_to_nid (discoveredStart env)
           else env.phys_to_target_node (discoveredStart env)) } := by
  unfold virtio_pmem_probe
  rw [hg, hal, hvq, hb, hr]

lemma probe_region_fail (env : ProbeEnv)
    (hg : env.config_get_available = true) (hal : env.alloc_ok = true)
    (hvq : env.vq_err = none) (hb : env.bus_ok = true)
    (hr : env.region_ok = false) :
    virtio_pmem_probe env =
      { trace := [Ev.initVq] ++ discoveryEvents env ++
          [Ev.busRegister, Ev.deviceReady, Ev.regionCreate,
           Ev.resetDevice, Ev.busUnregister, Ev.delVqs],
        err := some .regionCreateFailed,
        res := ⟨false, false, false, false⟩,
        discovered := some (discoveredStart env, discoveredSize env),
        resEnd := some ((discoveredStart env + discoveredSize env + (U64 - 1)) % U64),
        targetNode := some
          (if env.phys_to_target_node (discoveredStart env) = NUMA_NO_NODE
           then env.memory_add_physaddr_to_nid (discoveredStart env)
           else env.phys_to_target_node (discoveredStart env)) } := by
  unfold virtio_pmem_probe
  rw [hg, hal, hvq, hb, hr]

lemma submitAll_pending (cs : List Nat) :
    ∀ (t0 : Nat) (L : List FlushReq),
      (submitAll ⟨t0, L⟩ cs).pending = L ++ pendList t0 cs := by
  induction cs with
  | nil => intro t0 L; simp [submitAll, pendList]
  | cons c rest ih =>
    intro t0 L
    have hstep : submitAll ⟨t0, L⟩ (c :: rest)
        = submitAll ⟨t0 + 1, L ++ [⟨t0, c⟩]⟩ rest := rfl
    rw [hstep, ih]
    simp [pendList]

lemma resolve_completion_pending (st : QueueState) (t : Nat) :
    (resolve_completion st t).1.pending
      = st.pending.filter (fun r => !(r.token == t)) := by
  unfold resolve_completion
  cases hf : st.pending.find? (fun r => r.token == t) with
  | some r => simp
  | none =>
    have hall := List.find?_eq_none.mp hf
    simp only []
    symm
    rw [List.filter_eq_self]
    intro a ha
    simpa using hall a ha

lemma resolveSeq_pending (ts : List Nat) :
    ∀ st : QueueState,
      (resolveSeq st ts).pending
        = st.pending.filter (fun r => !(ts.any (fun t => r.token == t))) := by
  induction ts with
  | nil =>
    intro st
    simp [resolveSeq]
  | cons t ts ih =>
    intro st
    have hstep : resolveSeq st (t :: ts) = resolveSeq (resolve_completion st t).1 ts := rfl
    rw [hstep, ih, resolve_completion_pending, List.filter_filter]
    apply List.filter_congr
    intro r _
    simp only [List.any_cons, Bool.not_or]
    cases h1 : r.token == t <;> cases h2 : ts.any (fun x => r.token == x) <;> rfl

lemma any_beq_eq_false {t0 : Nat} {done : List Nat} (hd : t0 ∉ done) :
    done.any (fun t => t0 == t) = false := by
  rw [Bool.eq_false_iff]
  intro hany
  rcases List.any_eq_true.mp hany with ⟨x, hx, hbx⟩
  have hx2 : t0 = x := by simpa using hbx
  exact hd (hx2 ▸ hx)

lemma find?_filter_pendList (cs : List Nat) :
    ∀ (t0 : Nat) (done : List Nat) (i : Nat) (hi : i < cs.length),
      (t0 + i) ∉ done →
      ((pendList t0 cs).filter
          (fun r => !(done.any (fun t => r.token == t)))).find?
          (fun r => r.token == t0 + i)
        = some ⟨t0 + i, cs.get ⟨i, hi⟩⟩ := by
  induction cs with
  | nil =>
    intro t0 done i hi
    exact absurd hi (by simp)
  | cons c rest ih =>
    intro t0 done i hi hd
    cases i with
    | zero =>
      have hkeep : (done.any (fun t => (FlushReq.mk t0 c).token == t)) = false :=
        any_beq_eq_false (by simpa using hd)
      simp [pendList, List.filter_cons, hkeep, List.find?_cons]
    | succ j =>
      have hj : j < rest.length := by
        have h := hi
        simp only [List.length_cons] at h
        omega
      have harith : t0 + (j + 1) = (t0 + 1) + j := by omega
      have hd2 : ((t0 + 1) + j) ∉ done := by rwa [harith] at hd
      have hihead : ¬(((FlushReq.mk t0 c).token == t0 + (j + 1)) = true) := by
        simp only [FlushReq.mk.injEq]
        simp only [beq_iff_eq]
        omega
      have htail := ih (t0 + 1) done j hj hd2
      rw [pendList]
      cases hk : done.any (fun t => (FlushReq.mk t0 c).token == t) with
      | false =>
        rw [List.filter_cons_of_pos (by simp [hk])]
        rw [List.find?_cons_of_neg (p := fun (r : FlushReq) => r.token == t0 + (j + 1)) _ hihead]
        rw [harith]
        simpa using htail
      | true =>
        rw [List.filter_cons_of_neg (by simp [hk])]
        rw [harith]
        simpa using htail

/-! ### Claim theorems -/

/-- C8: for requests submitted in order by callers `cs` with tokens
`t0, t0+1, …`, a completion reporting token `t0 + i` resolves exactly
the caller that submitted it (`cs[i]`), regardless of which other
completions (`done`, in any order, possibly including stale tokens)
arrived before it. -/
theorem flush_token_resolution (cs : List Nat) (t0 : Nat) (done : List Nat)
    (i : Nat) (hi : i < cs.length) (hd : (t0 + i) ∉ done) :
    (resolve_completion (resolveSeq (submitAll ⟨t0, []⟩ cs) done) (t0 + i)).2
      = some (cs.get ⟨i, hi⟩) := by
  have hp : (resolveSeq (submitAll ⟨t0, []⟩ cs) done).pending
      = (pendList t0 cs).filter (fun r => !(done.any (fun t => r.token == t))) := by
    rw [resolveSeq_pending, submitAll_pending]
    simp
  unfold resolve_completion
  rw [hp, find?_filter_pendList cs t0 done i hi hd]

/-- Witness for C8: callers 10, 20, 30 submit with tokens 5, 6, 7
(fresh-token counter starts at 5); after token 7 completes first,
completing token 5 resolves the first caller, 10. -/
theorem flush_token_resolution_witness :
    (resolve_completion (resolveSeq (submitAll ⟨5, []⟩ [10, 20, 30]) [7]) (5 + 0)).2
      = some 10 :=
  flush_token_resolution [10, 20, 30] 5 [7] 0 (by decide) (by decide)

/-- C9: whenever `init_vq` succeeds, the device context it produces has
an empty pending collection (`req_list`) and an initialized, unheld
`pmem_lock`. -/
theorem init_vq_queue_ready (r : Except Int Unit) (dev : VirtioPmemDev)
    (h : init_vq r = .ok dev) :
    dev.req_list = [] ∧ dev.pmem_lock = .unheld := by
  cases r with
  | error e => exact absurd h (by simp [init_vq])
  | ok vq =>
    have h2 : VirtioPmemDev.mk vq .unheld [] = dev := by
      simpa [init_vq] using h
    rw [← h2]
    exact ⟨rfl, rfl⟩

/-- Witness for C9: a successful queue allocation yields the queue-ready
context with no pending request and the lock unheld. -/
theorem init_vq_queue_ready_witness :
    init_vq (.ok ()) = .ok (VirtioPmemDev.mk () .unheld []) ∧
    (VirtioPmemDev.mk () .unheld []).req_list = [] ∧
    (VirtioPmemDev.mk () .unheld []).pmem_lock = .unheld :=
  ⟨rfl, init_vq_queue_ready (.ok ()) (VirtioPmemDev.mk () .unheld []) rfl⟩

lemma probe_discovery_fields (env : ProbeEnv)
    (hg : env.config_get_available = true) (hal : env.alloc_ok = true)
    (hvq : env.vq_err = none) :
    (virtio_pmem_probe env).discovered
      = some (discoveredStart env, discoveredSize env) ∧
    (virtio_pmem_probe env).resEnd
      = some ((discoveredStart env + discoveredSize env + (U64 - 1)) % U64) := by
  cases hb : env.bus_ok with
  | false =>
    rw [probe_bus_fail env hg hal hvq hb]
    exact ⟨rfl, rfl⟩
  | true =>
    cases hr : env.region_ok with
    | false =>
      rw [probe_region_fail env hg hal hvq hb hr]
      exact ⟨rfl, rfl⟩
    | true =>
      rw [probe_success env hg hal hvq hb hr]
      exact ⟨rfl, rfl⟩

/-- C1: when the host advertises the pmem capability region, discovery
uses its `(addr, len)` verbatim and the two configuration-space fields
are never read during that attach (on any path, failing or not). -/
theorem shm_capability_used_verbatim (env : ProbeEnv) (r : ShmRegion)
    (hshm : env.shm_region = some r)
    (ha : r.addr < U64) (hl : r.len < U64) :
    (Ev.readCfgStart ∉ (virtio_pmem_probe env).trace ∧
     Ev.readCfgSize ∉ (virtio_pmem_probe env).trace) ∧
    (env.config_get_available = true → env.alloc_ok = true →
     env.vq_err = none →
     (virtio_pmem_probe env).discovered = some (r.addr, r.len)) := by
  have hde : discoveryEvents env = [Ev.readShm] := by
    simp [discoveryEvents, hshm]
  have hds : discoveredStart env = r.addr := by
    simp [discoveredStart, hshm, Nat.mod_eq_of_lt ha]
  have hdz : discoveredSize env = r.len := by
    simp [discoveredSize, hshm, Nat.mod_eq_of_lt hl]
  constructor
  · cases hg : env.config_get_available with
    | false =>
      rw [probe_cfg_unavailable env hg]
      simp
    | true =>
      cases hal : env.alloc_ok with
      | false =>
        rw [probe_alloc_fail env hg hal]
        simp
      | true =>
        cases hvq : env.vq_err with
        | some e =>
          rw [probe_vq_fail env e hg hal hvq]
          simp
        | none =>
          cases hb : env.bus_ok with
          | false =>
            rw [probe_bus_fail env hg hal hvq hb]
            simp [hde]
          | true =>
            cases hr : env.region_ok with
            | false =>
              rw [probe_region_fail env hg hal hvq hb hr]
              simp [hde]
            | true =>
              rw [probe_success env hg hal hvq hb hr]
              simp [hde]
  · intro hg hal hvq
    rw [(probe_discovery_fields env hg hal hvq).1, hds, hdz]

/-- Witness for C1: on `envShmOk` the discovered range is the
capability's `(4096, 8192)` and no configuration field is read. -/
theorem shm_capability_used_verbatim_witness :
    Ev.readCfgStart ∉ (virtio_pmem_probe envShmOk).trace ∧
    (virtio_pmem_probe envShmOk).discovered = some (4096, 8192) := by
  have h := shm_capability_used_verbatim envShmOk ⟨4096, 8192⟩ rfl
    (by decide) (by decide)
  exact ⟨h.1.1, h.2 rfl rfl rfl⟩

lemma le64_lt (bs : List Nat) : le64 bs < 256 ^ bs.length := by
  induction bs with
  | nil => simp [le64]
  | cons b bs ih =>
    have h1 : b % 256 < 256 := Nat.mod_lt _ (by norm_num)
    have h2 : 256 * le64 bs ≤ 256 * (256 ^ bs.length - 1) :=
      Nat.mul_le_mul_left _ (by omega)
    have h3 : (256 : Nat) ^ (bs.length + 1) = 256 * 256 ^ bs.length := by
      rw [pow_succ, Nat.mul_comm]
    have h4 : 0 < (256 : Nat) ^ bs.length := Nat.pos_pow_of_pos _ (by norm_num)
    simp only [le64, List.foldr_cons, List.length_cons]
    have h5 : le64 bs = bs.foldr (fun b a => b % 256 + 256 * a) 0 := rfl
    rw [← h5] at *
    omega

/-- C2: when no capability region is advertised, the discovered
`(start, size)` equals the two little-endian decoded configuration
fields. -/
theorem config_fallback_used (env : ProbeEnv)
    (hshm : env.shm_region = none)
    (hg : env.config_get_available = true) (hal : env.alloc_ok = true)
    (hvq : env.vq_err = none)
    (hlen1 : env.config_start_bytes.length = 8)
    (hlen2 : env.config_size_bytes.length = 8) :
    (virtio_pmem_probe env).discovered
      = some (le64 env.config_start_bytes, le64 env.config_size_bytes) := by
  have hb1 : le64 env.config_start_bytes < U64 := by
    have h := le64_lt env.config_start_bytes
    rw [hlen1] at h
    simpa [U64] using h
  have hb2 : le64 env.config_size_bytes < U64 := by
    have h := le64_lt env.config_size_bytes
    rw [hlen2] at h
    simpa [U64] using h
  have hds : discoveredStart env = le64 env.config_start_bytes := by
    simp [discoveredStart, hshm, Nat.mod_eq_of_lt hb1]
  have hdz : discoveredSize env = le64 env.config_size_bytes := by
    simp [discoveredSize, hshm, Nat.mod_eq_of_lt hb2]
  rw [(probe_discovery_fields env hg hal hvq).1, hds, hdz]

/-- Witness for C2: on `envCfgOk` the configuration bytes decode to
`(4096, 8192)` and discovery reports exactly that. -/
theorem config_fallback_used_witness :
    (virtio_pmem_probe envCfgOk).discovered = some (4096, 8192) := by
  have h := config_fallback_used envCfgOk rfl rfl rfl rfl rfl rfl
  simpa [le64, envCfgOk] using h

/-- Counterexample to C3 as stated: on `envCfgOffShm` the capability
source *is* reachable (a region is advertised), yet the probe still
fails with `ConfigUnavailable`, because the code tests only
`vdev->config->get`; so "fails iff *neither* source is reachable" does
not hold. -/
theorem config_unavailable_counterexample :
    ¬(((virtio_pmem_probe envCfgOffShm).err = some AttachError.configUnavailable)
        ↔ (envCfgOffShm.shm_region = none ∧
           envCfgOffShm.config_get_available = false)) := by
  decide

/-- C3 (amended): attach fails with `ConfigUnavailable` iff the
configuration-space read primitive is disabled (`config->get` absent),
regardless of whether a capability region is advertised; the failure is
fatal: no resource is held, nothing is discovered, and no action was
performed. -/
theorem config_unavailable_iff_get_disabled (env : ProbeEnv) :
    ((virtio_pmem_probe env).err = some AttachError.configUnavailable
      ↔ env.config_get_available = false) ∧
    (env.config_get_available = false →
      (virtio_pmem_probe env).res = ⟨false, false, false, false⟩ ∧
      (virtio_pmem_probe env).discovered = none ∧
      (virtio_pmem_probe env).trace = []) := by
  cases hg : env.config_get_available with
  | false =>
    rw [probe_cfg_unavailable env hg]
    exact ⟨by simp, fun _ => ⟨rfl, rfl, rfl⟩⟩
  | true =>
    refine ⟨?_, fun h => by simp_all⟩
    cases hal : env.alloc_ok with
    | false =>
      rw [probe_alloc_fail env hg hal]
      simp
    | true =>
      cases hvq : env.vq_err with
      | some e =>
        rw [probe_vq_fail env e hg hal hvq]
        simp
      | none =>
        cases hb : env.bus_ok with
        | false =>
          rw [probe_bus_fail env hg hal hvq hb]
          simp
        | true =>
          cases hr : env.region_ok with
          | false =>
            rw [probe_region_fail env hg hal hvq hb hr]
            simp
          | true =>
            rw [probe_success env hg hal hvq hb hr]
            simp

/-- Witness for C3 (amended): with `config->get` disabled the probe
reports `ConfigUnavailable` and holds no resource. -/
theorem config_unavailable_iff_get_disabled_witness :
    (virtio_pmem_probe envCfgOffShm).err = some AttachError.configUnavailable ∧
    (virtio_pmem_probe envCfgOffShm).res = ⟨false, false, false, false⟩ := by
  have h := config_unavailable_iff_get_disabled envCfgOffShm
  exact ⟨h.1.mpr rfl, (h.2 rfl).1⟩

lemma discoveryEvents_filter_rel (env : ProbeEnv) :
    (discoveryEvents env).filter isRelEv = [] := by
  cases h : env.shm_region <;> simp [discoveryEvents, h, isRelEv]

lemma discoveryEvents_filter_acq (env : ProbeEnv) :
    (discoveryEvents env).filter isAcqEv = [] := by
  cases h : env.shm_region <;> simp [discoveryEvents, h, isAcqEv]

/-- C4: a failing attach reports a single error, holds no queue, no bus
handle and no region, and its release events are exactly the releases
of the successfully acquired resources, in reverse acquisition order. -/
theorem attach_unwind (env : ProbeEnv) (e : AttachError)
    (h : (virtio_pmem_probe env).err = some e) :
    (virtio_pmem_probe env).res = ⟨false, false, false, false⟩ ∧
    ((virtio_pmem_probe env).trace.filter isRelEv)
      = (((virtio_pmem_probe env).trace.filter isAcqEv).map relOf).reverse := by
  cases hg : env.config_get_available with
  | false =>
    rw [probe_cfg_unavailable env hg]
    exact ⟨rfl, rfl⟩
  | true =>
    cases hal : env.alloc_ok with
    | false =>
      rw [probe_alloc_fail env hg hal]
      exact ⟨rfl, rfl⟩
    | true =>
      cases hvq : env.vq_err with
      | some e2 =>
        rw [probe_vq_fail env e2 hg hal hvq]
        exact ⟨rfl, rfl⟩
      | none =>
        cases hb : env.bus_ok with
        | false =>
          rw [probe_bus_fail env hg hal hvq hb]
          refine ⟨rfl, ?_⟩
          simp [List.filter_append, discoveryEvents_filter_rel,
            discoveryEvents_filter_acq, isRelEv, isAcqEv, relOf]
        | true =>
          cases hr : env.region_ok with
          | false =>
            rw [probe_region_fail env hg hal hvq hb hr]
            refine ⟨rfl, ?_⟩
            simp [List.filter_append, discoveryEvents_filter_rel,
              discoveryEvents_filter_acq, isRelEv, isAcqEv, relOf]
          | true =>
            rw [probe_success env hg hal hvq hb hr] at h
            exact absurd h (by simp)

/-- Witness for C4: the attach that fails at region creation ends with
no resource held and releases (bus, then queue) in reverse acquisition
order. -/
theorem attach_unwind_witness :
    (virtio_pmem_probe envRegionFail).res = ⟨false, false, false, false⟩ ∧
    ((virtio_pmem_probe envRegionFail).trace.filter isRelEv)
      = (((virtio_pmem_probe envRegionFail).trace.filter isAcqEv).map relOf).reverse :=
  attach_unwind envRegionFail AttachError.regionCreateFailed rfl

/-- C5: in the detach sequence, unregistering the region/bus (which
drains all pending requests) strictly precedes releasing the hardware
queue (`del_vqs`). -/
theorem remove_drain_before_queue_release :
    Ev.busUnregister ∈ virtio_pmem_remove_trace ∧
    Ev.delVqs ∈ virtio_pmem_remove_trace ∧
    virtio_pmem_remove_trace.indexOf Ev.busUnregister
      < virtio_pmem_remove_trace.indexOf Ev.delVqs := by
  decide

/-- C6: the target node supplied to region registration is the
platform-resolved node for the discovered start address, except when
the platform reports `NUMA_NO_NODE`, in which case it is the NUMA node
computed locally from that same address. -/
theorem numa_target_node_fallback (env : ProbeEnv)
    (hg : env.config_get_available = true) (hal : env.alloc_ok = true)
    (hvq : env.vq_err = none) (hb : env.bus_ok = true) :
    (virtio_pmem_probe env).targetNode
      = some (if env.phys_to_target_node (discoveredStart env) = NUMA_NO_NODE
              then env.memory_add_physaddr_to_nid (discoveredStart env)
              else env.phys_to_target_node (discoveredStart env)) := by
  cases hr : env.region_ok with
  | false => rw [probe_region_fail env hg hal hvq hb hr]
  | true => rw [probe_success env hg hal hvq hb hr]

/-- Witness for C6: on `envShmOk` the platform reports `NUMA_NO_NODE`
(-1) and the node used is the locally computed node 2. -/
theorem numa_target_node_fallback_witness :
    (virtio_pmem_probe envShmOk).targetNode = some 2 := by
  have h := numa_target_node_fallback envShmOk rfl rfl rfl rfl
  rw [h]
  decide

/-- Counterexample to C7 as stated: with the capability range
`start = 2^64 - 1`, `size = 2` (strictly positive), the driver's `u64`
computation of `start + size - 1` wraps to 0, which is not the exact
integer `start + size - 1 = 2^64`. -/
theorem res_end_overflow_counterexample :
    (virtio_pmem_probe envOverflow).discovered = some (2 ^ 64 - 1, 2) ∧
    0 < 2 ∧
    (virtio_pmem_probe envOverflow).resEnd ≠ some ((2 ^ 64 - 1) + 2 - 1) := by
  decide

/-- C7 (amended): for every discovered range with strictly positive
size whose `start + size` does not exceed `2^64`, the inclusive end
used when registering the region is exactly `start + size - 1`. -/
theorem res_end_exact_no_overflow (env : ProbeEnv)
    (hg : env.config_get_available = true) (hal : env.alloc_ok = true)
    (hvq : env.vq_err = none) (s z : Nat)
    (hd : (virtio_pmem_probe env).discovered = some (s, z))
    (hz : 0 < z) (hov : s + z ≤ U64) :
    (virtio_pmem_probe env).resEnd = some (s + z - 1) := by
  obtain ⟨h1, h2⟩ := probe_discovery_fields env hg hal hvq
  rw [hd] at h1
  have hs : discoveredStart env = s := by
    have := (Option.some.injEq _ _).mp h1.symm
    exact (Prod.mk.injEq _ _ _ _).mp this |>.1
  have hzz : discoveredSize env = z := by
    have := (Option.some.injEq _ _).mp h1.symm
    exact (Prod.mk.injEq _ _ _ _).mp this |>.2
  rw [h2, hs, hzz]
  have hu : 0 < U64 := by norm_num [U64]
  have harith : s + z + (U64 - 1) = (s + z - 1) + U64 := by omega
  rw [harith, Nat.add_mod_right, Nat.mod_eq_of_lt (by omega)]

/-- Witness for C7 (amended): on `envShmOk` the discovered range is
`(4096, 8192)` and the inclusive end is `4096 + 8192 - 1`. -/
theorem res_end_exact_no_overflow_witness :
    (virtio_pmem_probe envShmOk).resEnd = some (4096 + 8192 - 1) :=
  res_end_exact_no_overflow envShmOk rfl rfl rfl 4096 8192
    (by decide) (by decide) (by decide)

lemma ready_order_of_concrete (env : ProbeEnv) (L : List Ev)
    (E : Option AttachError) (b : Bool)
    (ht : (virtio_pmem_probe env).trace = L)
    (he : (virtio_pmem_probe env).err = E)
    (hry : (virtio_pmem_probe env).res.ready = b)
    (H : (Ev.regionCreate ∈ L →
            Ev.deviceReady ∈ L ∧
            L.indexOf Ev.deviceReady < L.indexOf Ev.regionCreate) ∧
         (E = some AttachError.regionCreateFailed →
            Ev.resetDevice ∈ L ∧
            L.indexOf Ev.resetDevice < L.indexOf Ev.busUnregister) ∧
         (E ≠ none → b = false)) :
    (Ev.regionCreate ∈ (virtio_pmem_probe env).trace →
      Ev.deviceReady ∈ (virtio_pmem_probe env).trace ∧
      (virtio_pmem_probe env).trace.indexOf Ev.deviceReady
        < (virtio_pmem_probe env).trace.indexOf Ev.regionCreate) ∧
    ((virtio_pmem_probe env).err = some AttachError.regionCreateFailed →
      Ev.resetDevice ∈ (virtio_pmem_probe env).trace ∧
      (virtio_pmem_probe env).trace.indexOf Ev.resetDevice
        < (virtio_pmem_probe env).trace.indexOf Ev.busUnregister) ∧
    ((virtio_pmem_probe env).err ≠ none →
      (virtio_pmem_probe env).res.ready = false) := by
  rw [ht, he, hry]
  exact H

/-- C10: the device is marked ready before region creation is
attempted; when region creation fails it is reset before the bus is
unregistered; and a failed attach never ends in the ready state. -/
theorem device_ready_before_region_create (env : ProbeEnv) :
    (Ev.regionCreate ∈ (virtio_pmem_probe env).trace →
      Ev.deviceReady ∈ (virtio_pmem_probe env).trace ∧
      (virtio_pmem_probe env).trace.indexOf Ev.deviceReady
        < (virtio_pmem_probe env).trace.indexOf Ev.regionCreate) ∧
    ((virtio_pmem_probe env).err = some AttachError.regionCreateFailed →
      Ev.resetDevice ∈ (virtio_pmem_probe env).trace ∧
      (virtio_pmem_probe env).trace.indexOf Ev.resetDevice
        < (virtio_pmem_probe env).trace.indexOf Ev.busUnregister) ∧
    ((virtio_pmem_probe env).err ≠ none →
      (virtio_pmem_probe env).res.ready = false) := by
  cases hg : env.config_get_available with
  | false =>
    exact ready_order_of_concrete env [] (some .configUnavailable) false
      (by rw [probe_cfg_unavailable env hg])
      (by rw [probe_cfg_unavailable env hg])
      (by rw [probe_cfg_unavailable env hg]) (by decide)
  | true =>
    cases hal : env.alloc_ok with
    | false =>
      exact ready_order_of_concrete env [] (some .noMem) false
        (by rw [probe_alloc_fail env hg hal])
        (by rw [probe_alloc_fail env hg hal])
        (by rw [probe_alloc_fail env hg hal]) (by decide)
    | true =>
      cases hvq : env.vq_err with
      | some e =>
        refine ready_order_of_concrete env [] (some (.queueAllocFailed e)) false
          (by rw [probe_vq_fail env e hg hal hvq])
          (by rw [probe_vq_fail env e hg hal hvq])
          (by rw [probe_vq_fail env e hg hal hvq]) ⟨by simp, by simp, fun _ => rfl⟩
      | none =>
        have hde : discoveryEvents env = [Ev.readShm] ∨
            discoveryEvents env = [Ev.readCfgStart, Ev.readCfgSize] := by
          cases hs : env.shm_region <;> simp [discoveryEvents, hs]
        cases hb : env.bus_ok with
        | false =>
          cases hde with
          | inl hde =>
            exact ready_order_of_concrete env
              [Ev.initVq, Ev.readShm, Ev.delVqs] (some .busRegFailed) false
              (by rw [probe_bus_fail env hg hal hvq hb, hde]; rfl)
              (by rw [probe_bus_fail env hg hal hvq hb])
              (by rw [probe_bus_fail env hg hal hvq hb]) (by decide)
          | inr hde =>
            exact ready_order_of_concrete env
              [Ev.initVq, Ev.readCfgStart, Ev.readCfgSize, Ev.delVqs]
              (some .busRegFailed) false
              (by rw [probe_bus_fail env hg hal hvq hb, hde]; rfl)
              (by rw [probe_bus_fail env hg hal hvq hb])
              (by rw [probe_bus_fail env hg hal hvq hb]) (by decide)
        | true =>
          cases hr : env.region_ok with
          | false =>
            cases hde with
            | inl hde =>
              exact ready_order_of_concrete env
                [Ev.initVq, Ev.readShm, Ev.busRegister, Ev.deviceReady,
                 Ev.regionCreate, Ev.resetDevice, Ev.busUnregister, Ev.delVqs]
                (some .regionCreateFailed) false
                (by rw [probe_region_fail env hg hal hvq hb hr, hde]; rfl)
                (by rw [probe_region_fail env hg hal hvq hb hr])
                (by rw [probe_region_fail env hg hal hvq hb hr]) (by decide)
            | inr hde =>
              exact ready_order_of_concrete env
                [Ev.initVq, Ev.readCfgStart, Ev.readCfgSize, Ev.busRegister,
                 Ev.deviceReady, Ev.regionCreate, Ev.resetDevice,
                 Ev.busUnregister, Ev.delVqs]
                (some .regionCreateFailed) false
                (by rw [probe_region_fail env hg hal hvq hb hr, hde]; rfl)
                (by rw [probe_region_fail env hg hal hvq hb hr])
                (by rw [probe_region_fail env hg hal hvq hb hr]) (by decide)
          | true =>
            cases hde with
            | inl hde =>
              exact ready_order_of_concrete env
                [Ev.initVq, Ev.readShm, Ev.busRegister, Ev.deviceReady,
                 Ev.regionCreate] none true
                (by rw [probe_success env hg hal hvq hb hr, hde]; rfl)
                (by rw [probe_success env hg hal hvq hb hr])
                (by rw [probe_success env hg hal hvq hb hr]) (by decide)
            | inr hde =>
              exact ready_order_of_concrete env
                [Ev.initVq, Ev.readCfgStart, Ev.readCfgSize, Ev.busRegister,
                 Ev.deviceReady, Ev.regionCreate] none true
                (by rw [probe_success env hg hal hvq hb hr, hde]; rfl)
                (by rw [probe_success env hg hal hvq hb hr])
                (by rw [probe_success env hg hal hvq hb hr]) (by decide)

/-- Witness for C10: on the attach that fails at region creation, the
device is reset before the bus is unregistered and the final state is
not ready. -/
theorem device_ready_before_region_create_witness :
    (virtio_pmem_probe envRegionFail).trace.indexOf Ev.resetDevice
      < (virtio_pmem_probe envRegionFail).trace.indexOf Ev.busUnregister ∧
    (virtio_pmem_probe envRegionFail).res.ready = false := by
  have h := device_ready_before_region_create envRegionFail
  exact ⟨(h.2.1 (by decide)).2, h.2.2 (by decide)⟩

end VirtioPmem
